import Mathlib

/-!
# Verification of the aiorest-ws routing and dispatch engine

A shallow embedding of `aiorest_ws/routers.py` (the `SimpleRouter` class)
and of the framing layer of `aiorest_ws/server.py`
(`RestWSServerProtocol._decode_message` / `_encode_message`), together
with theorems settling the specification claims about them.

Paths and URLs are modelled as `List Char`; byte payloads as `List Nat`
(each element `< 256`).  Python exceptions become an explicit error type
threaded through `Except`; Python's `dict` becomes an insertion-ordered
association list with the same first-insert position / overwrite
semantics.

Components whose source files are not part of the repository snapshot
(`parsers.URLParser`, `exceptions`, `serializers.JSONSerializer`,
`wrappers.Request/Response`, `validators`, the `base64` library) are
modelled from the specification; each such definition says so in its
doc comment.
-/

namespace AiorestWs

/-- A path / URL is a list of characters (Python `str` restricted to what
the router inspects). -/
abbrev Path := List Char

/-- The character `{` (written via its code point to keep it out of
string literals). -/
def lbrace : Char := Char.ofNat 123

/-- The character `}` (written via its code point). -/
def rbrace : Char := Char.ofNat 125

/-- Whitespace characters removed by Python's `str.strip()`. -/
def isPySpace (c : Char) : Bool :=
  c = ' ' || c = '\t' || c = '\n' || c = '\r' || c = Char.ofNat 11 || c = Char.ofNat 12

/-- Python `str.strip()`: drop leading and trailing whitespace. -/
def pyStrip (p : Path) : Path :=
  ((p.dropWhile isPySpace).reverse.dropWhile isPySpace).reverse

/-- Embeds `SimpleRouter._correct_path`: strip surrounding whitespace and force a
trailing `/` (`path.strip()`; `if not path.endswith('/'): path += '/'`). -/
def correct_path (path : Path) : Path :=
  let path := pyStrip path
  if path.getLast? = some '/' then path else path ++ ['/']

/-! ## Exceptions

Modelled from the spec: the source imports `BaseAPIException`,
`EndpointValueError`, `NotSpecifiedHandler`, `NotSpecifiedURL` from
`aiorest_ws.exceptions`, whose file is not in the snapshot.  The spec
describes a "recognized API-exception taxonomy" (`BaseAPIException`,
carrying a `detail` message) and separate `TypeError`s for capability
violations; anything else is an unrecognized failure. -/

/-- A Python exception as the dispatch engine distinguishes them:
a `BaseAPIException` instance (with its `detail` message), a `TypeError`,
or any other exception. -/
inductive PyExc where
  | api (detail : String)
  | typeError (msg : String)
  | otherExc (tag : String)
  deriving DecidableEq, Repr

/-- Modelled from the spec: `NotSpecifiedURL().detail`, the message of the
"URL not specified" input error (`exceptions.py` is not in the snapshot). -/
def notSpecifiedURLDetail : String := "URL is not specified"

/-- Modelled from the spec: `NotSpecifiedHandler().detail`, the message of
the "no handler" input error. -/
def notSpecifiedHandlerDetail : String := "Handler not specified"

/-! ## Serialization

Modelled from the spec: `serializers.JSONSerializer` is not in the
snapshot; the spec only requires a default serializer producing the
structured body `{details: <message>}` for errors. -/

/-- Response content, pre-serialization: the handler's (opaque, possibly
null) result or the structured error body `{details: msg}`. -/
inductive Content where
  | null
  | value (v : String)
  | details (msg : String)
  deriving DecidableEq, Repr

/-- A serializer turns content into payload bytes. -/
abbrev Serializer := Content → List Nat

/-- Byte sequence of a string (code points; only used on ASCII text). -/
def strBytes (s : String) : List Nat := s.toList.map Char.toNat

/-- Modelled from the spec: `JSONSerializer().serialize`, the default
JSON serializer.  Error bodies serialize to the bytes of
`{"details": "<msg>"}` (braces emitted as code points 123/125). -/
def jsonSerialize : Serializer
  | .null => strBytes "null"
  | .value v => 34 :: strBytes v ++ [34]
  | .details msg =>
      123 :: strBytes "\"details\": \"" ++ strBytes msg ++ [34, 125]

/-! ## Requests, handlers, middleware

Modelled from the spec: `wrappers.Request`/`Response` and the
handler/middleware capability contracts (`handler.dispatch`,
`handler.get_serializer`, `middleware.process_request`) come from files
not in the snapshot; the spec gives their signatures. -/

/-- Query/body arguments: a name-value mapping. -/
abbrev Args := List (String × String)

/-- Modelled from the spec: `wrappers.Request` — a `url` (absent or empty
is a falsy value), a method token, and an `args` mapping with a
`get_argument` accessor. -/
structure Request where
  url : Option Path
  method : String
  args : Args
  deriving DecidableEq, Repr

/-- Python truthiness of `request.url`: `not request.url` holds when the
field is absent or an empty string. -/
def Request.urlFalsy (r : Request) : Bool :=
  match r.url with
  | none => true
  | some p => p.isEmpty

/-- Modelled from the spec: `request.get_argument(name)` pulls a named
argument (used for the response-format hint). -/
def Request.get_argument (r : Request) (name : String) : Option String :=
  (r.args.find? (fun p => p.1 = name)).map Prod.snd

/-- The handler capability contract: `get_serializer(format, *args,
**kwargs)` and `dispatch(request, *args, **kwargs)`; either may raise. -/
structure Handler where
  get_serializer : Option String → List Path → Option Args → Except PyExc Serializer
  dispatch : Request → List Path → Option Args → Except PyExc Content

/-- The middleware capability contract: `process_request(request)` returns
a (possibly replaced) request or raises. -/
structure Middleware where
  process_request : Request → Except PyExc Request

/-! ## Route compilation and matching

Modelled from the spec: `parsers.URLParser.define_route` and
`Route.match` are in `parsers.py`, not in the snapshot.  The spec:
literal segments plus named-parameter (`{name}`) segments; a URL matches
when segment counts are equal, literal segments are equal, and parameter
segments always match and capture their value; captured values are
returned positionally in declaration order. -/

/-- One compiled pattern segment: a literal or a named parameter. -/
inductive Segment where
  | literal (s : Path)
  | param (name : Path)
  deriving DecidableEq, Repr

/-- Split a path on `/` (like Python `'a/b/'.split('/') = ['a','b','']`). -/
def splitSlash : Path → List Path
  | [] => [[]]
  | c :: rest =>
      if c = '/' then [] :: splitSlash rest
      else
        match splitSlash rest with
        | [] => [[c]]
        | s :: ss => (c :: s) :: ss

/-- Classify one path segment: `{name}` is a parameter, all else literal. -/
def classifySeg (s : Path) : Segment :=
  if s.head? = some lbrace ∧ s.getLast? = some rbrace then
    .param (s.drop 1 |>.dropLast)
  else .literal s

/-- A compiled route: normalized pattern string, compiled segments,
handler, allowed methods, optional name. -/
structure Route where
  path : Path
  pattern : List Segment
  handler : Handler
  methods : List String
  name : Option String

/-- Structural matching of compiled segments against URL segments:
equal count, literals equal, parameters capture their URL segment.
Captured values come back in declaration (left-to-right) order. -/
def matchSegs : List Segment → List Path → Option (List Path)
  | [], [] => some []
  | .literal l :: ps, s :: ss => if l = s then matchSegs ps ss else none
  | .param _ :: ps, s :: ss => (matchSegs ps ss).map (s :: ·)
  | _, _ => none

/-- Modelled from the spec: `Route.match(url)` — structural match of the
compiled pattern against the URL, returning captured values or no-match. -/
def Route.match (route : Route) (url : Path) : Option (List Path) :=
  matchSegs route.pattern (splitSlash url)

/-- Modelled from the spec: `URLParser.define_route(path, handler,
methods, name)` — compile the (already normalized) path into a `Route`. -/
def define_route (path : Path) (handler : Handler) (methods : List String)
    (name : Option String) : Route :=
  { path := path
    pattern := (splitSlash path).map classifySeg
    handler := handler
    methods := methods
    name := name }

/-! ## The name index (Python `dict`)

`SimpleRouter._routes` is a Python `dict` from name to route: modelled as
an insertion-ordered association list with unique keys, with `d[k] = v`
replacing in place when the key exists and appending otherwise, and
`d.update(other)` folding `d[k] = v` over `other`'s entries. -/

/-- A name index: insertion-ordered (name, route) pairs. -/
abbrev RouteDict := List (String × Route)

/-- Membership test, `name in d.keys()`. -/
def dictHas (d : RouteDict) (k : String) : Bool :=
  d.any (fun p => p.1 = k)

/-- Lookup `d[k]` as an option (first — and with unique keys only — entry). -/
def dictGet (d : RouteDict) (k : String) : Option Route :=
  (d.find? (fun p => p.1 = k)).map Prod.snd

/-- Assignment `d[k] = v`: replace in place when the key is present, append at the
end when absent (Python dicts keep an existing key's position). -/
def dictSet : RouteDict → String → Route → RouteDict
  | [], k, v => [(k, v)]
  | (a, b) :: t, k, v =>
      if a = k then (k, v) :: t else (a, b) :: dictSet t k v

/-- Bulk update `d.update(other)`: assign every entry of `other` in order. -/
def dictUpdate (d other : RouteDict) : RouteDict :=
  other.foldl (fun acc p => dictSet acc p.1 p.2) d

/-! ## The router state -/

/-- The `SimpleRouter` state: the ordered route list `_urls`, the name index
`_routes`, and the registered middleware chain (from `AbstractRouter`,
modelled from the spec as an ordered sequence). -/
structure Router where
  urls : List Route
  routes : RouteDict
  middlewares : List Middleware

/-- A freshly constructed `SimpleRouter()`. -/
def Router.empty : Router := { urls := [], routes := [], middlewares := [] }

/-- The argument passed to `_register_url`: either a genuine compiled
route or a value of some other class (Python being dynamically typed). -/
inductive EndpointArg where
  | route (r : Route)
  | otherClass (tag : String)

/-- The argument passed to `include`: either a genuine `SimpleRouter`
(subclass) instance or a value of some other class. -/
inductive RouterArg where
  | simple (r : Router)
  | otherClass (tag : String)

/-- Embeds `SimpleRouter._register_url(route)`: reject non-`AbstractEndpoint`
arguments with a `TypeError`; reject duplicate names with an
`EndpointValueError`; otherwise index the name (when given) and append
the route.  An error carries the router state as it stands when the
exception is raised. -/
def register_url (ro : Router) (arg : EndpointArg) :
    Except (PyExc × Router) Router :=
  match arg with
  | .otherClass _ =>
      .error (.typeError "Custom route must be inherited from the AbstractEndpoint class.", ro)
  | .route route =>
      match route.name with
      | some n =>
          if dictHas ro.routes n then
            .error (.api ("Duplicate " ++ n), ro)
          else
            .ok { ro with routes := dictSet ro.routes n route
                          urls := ro.urls ++ [route] }
      | none => .ok { ro with urls := ro.urls ++ [route] }

/-- Modelled from the spec: `RouteArgumentsValidator.validate` (from
`validators.py`, not in the snapshot) — `methods` must be a non-empty
method token or sequence; the handler capability is enforced by typing
here.  Fails with a validation error otherwise. -/
def validateArgs (methods : List String) : Except PyExc Unit :=
  if methods.isEmpty then .error (.otherExc "InvalidMethodsArgument") else .ok ()

/-- Embeds `SimpleRouter.register(path, handler, methods, name)`: normalize the
path, validate the arguments, compile the route, and register it. -/
def register (ro : Router) (path : Path) (handler : Handler)
    (methods : List String) (name : Option String) :
    Except (PyExc × Router) Router :=
  let path := correct_path path
  match validateArgs methods with
  | .error e => .error (e, ro)
  | .ok _ => register_url ro (.route (define_route path handler methods name))

/-- Embeds `SimpleRouter.include(router)` (`include` is reserved in Lean):
reject non-`SimpleRouter` arguments with a `TypeError`; otherwise extend
`_urls` with the other router's routes and `dict.update` the name index
with its entries. -/
def include_router (ro : Router) (arg : RouterArg) : Except (PyExc × Router) Router :=
  match arg with
  | .otherClass _ =>
      .error (.typeError "Passed router must be inherited from the SimpleRouter class.", ro)
  | .simple rb =>
      .ok { ro with urls := ro.urls ++ rb.urls
                    routes := dictUpdate ro.routes rb.routes }

/-! ## Dispatch -/

/-- Embeds `SimpleRouter.extract_url(request)`: raise `NotSpecifiedURL` when the
url field is falsy, else return the normalized URL. -/
def extract_url (request : Request) : Except PyExc Path :=
  if request.urlFalsy then .error (.api notSpecifiedURLDetail)
  else .ok (correct_path (request.url.getD []))

/-- Embeds `SimpleRouter.search_handler(request, url)`: walk `_urls` in order;
on the first route whose pattern matches, return its handler, the
captured values, and `{'params': request.args}` when `request.args` is
truthy; `(None, (), {})` when no route matches. -/
def search_handler (urls : List Route) (request : Request) (url : Path) :
    Option Handler × List Path × Option Args :=
  match urls with
  | [] => (none, [], none)
  | route :: rest =>
      match route.match url with
      | some m =>
          (some route.handler, m, if request.args.isEmpty then none else some request.args)
      | none => search_handler rest request url

/-- The middleware for-loop of `process_request`: thread the request
through every middleware's `process_request` in registration order,
propagating a raised exception. -/
def runMiddlewares : List Middleware → Request → Except PyExc Request
  | [], r => .ok r
  | m :: ms, r =>
      match m.process_request r with
      | .ok r' => runMiddlewares ms r'
      | .error e => .error e

/-- Exit state of the `try` block of `process_request`: either a normal
exit carrying the response content, the current binding of the local
variable `serializer` (`none` = still unbound), and the threaded request,
or an exceptional exit carrying the exception and the `serializer`
binding at raise time. -/
inductive TryExit where
  | normal (content : Content) (serializer : Option Serializer) (request : Request)
  | exc (e : PyExc) (serializer : Option Serializer)

/-- The `try` block of `SimpleRouter.process_request`: extract the URL,
search a handler, run the middleware chain, then either negotiate a
serializer and dispatch, or raise `NotSpecifiedHandler`. -/
def tryDispatch (ro : Router) (request : Request) : TryExit :=
  match extract_url request with
  | .error e => .exc e none
  | .ok url =>
      let sh := search_handler ro.urls request url
      match runMiddlewares ro.middlewares request with
      | .error e => .exc e none
      | .ok request' =>
          match sh.1 with
          | some handler =>
              match handler.get_serializer (request'.get_argument "format") sh.2.1 sh.2.2 with
              | .error e => .exc e none
              | .ok serializer =>
                  match handler.dispatch request' sh.2.1 sh.2.2 with
                  | .error e => .exc e (some serializer)
                  | .ok content => .normal content (some serializer) request'
          | none => .exc (.api notSpecifiedHandlerDetail) none

/-- How `process_request` can fail to return: a non-`BaseAPIException`
exception propagates (`raised`), or the final `serializer.serialize`
reads a never-assigned local (`unboundLocal`). -/
inductive RunError where
  | raised (e : PyExc)
  | unboundLocal

/-- Embeds `SimpleRouter.process_request(request)`: run the `try` block; catch
`BaseAPIException` by setting the content to `{details: exc.detail}` and
the serializer to a fresh `JSONSerializer`; let anything else propagate;
finally serialize the response content with the bound serializer. -/
def process_request (ro : Router) (request : Request) :
    Except RunError (List Nat) :=
  match tryDispatch ro request with
  | .normal content serializer? _ =>
      match serializer? with
      | some serializer => .ok (serializer content)
      | none => .error .unboundLocal
  | .exc e _ =>
      match e with
      | .api detail => .ok (jsonSerialize (.details detail))
      | e' => .error (.raised e')

/-! ## The transport framing layer (`server.py`)

Modelled from the spec for the `base64` standard library itself: RFC 4648
base64 over byte sequences (`List Nat`, each `< 256`), alphabet
`A–Z a–z 0–9 + /` with `=` padding. -/

/-- Encode one sextet (`< 64`) as its base64 alphabet ASCII code. -/
def b64charEnc (s : Nat) : Nat :=
  if s < 26 then 65 + s
  else if s < 52 then 97 + (s - 26)
  else if s < 62 then 48 + (s - 52)
  else if s = 62 then 43
  else 47

/-- Decode one base64 alphabet ASCII code back to its sextet. -/
def b64charDec (c : Nat) : Nat :=
  if 65 ≤ c ∧ c ≤ 90 then c - 65
  else if 97 ≤ c ∧ c ≤ 122 then c - 97 + 26
  else if 48 ≤ c ∧ c ≤ 57 then c - 48 + 52
  else if c = 43 then 62
  else 63

/-- Modelled from the spec: `base64.b64encode` — bytes to base64 ASCII,
three bytes per four characters, `=`-padded (61 is the code of `=`). -/
def b64encode : List Nat → List Nat
  | [] => []
  | [a] => [b64charEnc (a / 4), b64charEnc (a % 4 * 16), 61, 61]
  | [a, b] => [b64charEnc (a / 4), b64charEnc (a % 4 * 16 + b / 16),
               b64charEnc (b % 16 * 4), 61]
  | a :: b :: c :: rest =>
      b64charEnc (a / 4) :: b64charEnc (a % 4 * 16 + b / 16) ::
      b64charEnc (b % 16 * 4 + c / 64) :: b64charEnc (c % 64) ::
      b64encode rest

/-- Modelled from the spec: `base64.b64decode` — base64 ASCII back to
bytes, honouring `=` padding in the final quadruple. -/
def b64decode : List Nat → List Nat
  | x :: y :: z :: w :: rest =>
      if z = 61 then [b64charDec x * 4 + b64charDec y / 16]
      else if w = 61 then
        [b64charDec x * 4 + b64charDec y / 16,
         b64charDec y % 16 * 16 + b64charDec z / 4]
      else
        (b64charDec x * 4 + b64charDec y / 16) ::
        (b64charDec y % 16 * 16 + b64charDec z / 4) ::
        (b64charDec z % 4 * 64 + b64charDec w) ::
        b64decode rest
  | _ => []

/-- The framing half of `RestWSServerProtocol._decode_message`: when
`isBinary` is set the payload is base64-decoded first (the subsequent
JSON parsing into a `Request` is outside this layer). -/
def decode_message_framing (payload : List Nat) (isBinary : Bool) : List Nat :=
  if isBinary then b64decode payload else payload

/-- Embeds `RestWSServerProtocol._encode_message`: base64-encode the response
when `isBinary` is set, otherwise pass the bytes through unchanged. -/
def encode_message (response : List Nat) (isBinary : Bool) : List Nat :=
  if isBinary then b64encode response else response

/-! ## Concrete fixtures used by witnesses -/

/-- A concrete handler for instantiating theorems: default serializer,
dispatch returns the captured arguments joined by commas. -/
def sampleHandler : Handler where
  get_serializer := fun _ _ _ => .ok jsonSerialize
  dispatch := fun _ args _ => .ok (.value (String.intercalate "," (args.map List.asString)))

/-- The spec's worked example: the compiled route for
`user/profile/{user_name}` (normalized), named `profile`. -/
def sampleRoute : Route :=
  define_route (correct_path "user/profile/\x7buser_name\x7d".toList)
    sampleHandler ["GET"] (some "profile")

/-- A concrete request for `user/profile/alice` with no arguments. -/
def sampleRequest : Request :=
  { url := some "user/profile/alice".toList, method := "GET", args := [] }

/-! ## Theorems -/

/-- If every route of a prefix fails to match and the next route matches
with captures `m`, the search over the whole list stops there. -/
lemma search_handler_skips_nonmatching (req : Request) (u : Path) (l₁ l₂ : List Route)
    (rt : Route) (m : List Path)
    (h1 : ∀ r ∈ l₁, r.match u = none) (hm : rt.match u = some m) :
    search_handler (l₁ ++ rt :: l₂) req u =
      (some rt.handler, m, if req.args.isEmpty then none else some req.args) := by
  induction l₁ with
  | nil => simp [search_handler, hm]
  | cons r rest ih =>
      have hr : r.match u = none := h1 r (by simp)
      simp only [List.cons_append, search_handler, hr]
      exact ih (fun r' hr' => h1 r' (by simp [hr']))

/-- If no route matches, the search returns `(None, (), {})`. -/
lemma search_handler_all_none (l : List Route) (req : Request) (u : Path)
    (h : ∀ r ∈ l, r.match u = none) :
    search_handler l req u = (none, [], none) := by
  induction l with
  | nil => rfl
  | cons r rest ih =>
      have hr : r.match u = none := h r (by simp)
      simp only [search_handler, hr]
      exact ih (fun r' hr' => h r' (by simp [hr']))

/-- Captured values are exactly the URL segments sitting at the pattern's
parameter positions, in left-to-right declaration order. -/
lemma matchSegs_captures (pat : List Segment) (segs vals : List Path)
    (h : matchSegs pat segs = some vals) :
    vals = (pat.zip segs).filterMap
      (fun ps => match ps.1 with | .param _ => some ps.2 | .literal _ => none) := by
  induction pat generalizing segs vals with
  | nil =>
      cases segs <;> simp [matchSegs] at h
      simp [h]
  | cons p ps ih =>
      cases segs with
      | nil => cases p <;> simp [matchSegs] at h
      | cons s ss =>
          cases p with
          | literal l =>
              rw [show matchSegs (Segment.literal l :: ps) (s :: ss) =
                  if l = s then matchSegs ps ss else none from rfl] at h
              split at h
              · simp [List.zip_cons_cons, ih ss vals h]
              · exact absurd h (by simp)
          | param nm =>
              rw [show matchSegs (Segment.param nm :: ps) (s :: ss) =
                  (matchSegs ps ss).map (s :: ·) from rfl] at h
              rcases Option.map_eq_some'.mp h with ⟨vals', hv, rfl⟩
              simpa [List.zip_cons_cons] using ih ss vals' hv

/-- C1: route resolution returns the first registration-order match with
its captured values (in declaration order), never consulting later
routes, and `None` when nothing matches.
Part 1: if every route before `rt` fails to match and `rt` matches with
captures `m`, the search returns `rt`'s handler and `m`, whatever routes
follow.  Part 2: if no route matches, the handler is `None`.  Part 3:
captured values are exactly the URL segments at the parameter positions,
in pattern-declaration (left-to-right) order. -/
theorem search_handler_first_match (req : Request) (u : Path) :
    (∀ (l₁ l₂ : List Route) (rt : Route) (m : List Path),
        (∀ r ∈ l₁, r.match u = none) → rt.match u = some m →
        search_handler (l₁ ++ rt :: l₂) req u =
          (some rt.handler, m, if req.args.isEmpty then none else some req.args))
    ∧ (∀ l : List Route, (∀ r ∈ l, r.match u = none) →
        search_handler l req u = (none, [], none))
    ∧ (∀ (pat : List Segment) (segs vals : List Path),
        matchSegs pat segs = some vals →
        vals = (pat.zip segs).filterMap
          (fun ps => match ps.1 with | .param _ => some ps.2 | .literal _ => none)) :=
  ⟨fun l₁ l₂ rt m h1 hm => search_handler_skips_nonmatching req u l₁ l₂ rt m h1 hm,
   fun l h => search_handler_all_none l req u h,
   fun pat segs vals h => matchSegs_captures pat segs vals h⟩

/-- C1 witness: the spec's example instantiated — one registered route
`user/profile/{user_name}/`, URL `user/profile/alice/`, resolving to the
route's handler with captured values `('alice',)`. -/
theorem search_handler_first_match_witness :
    search_handler [sampleRoute] sampleRequest
        (correct_path "user/profile/alice".toList) =
      (some sampleRoute.handler, ["alice".toList], none) := by
  have h := (search_handler_first_match sampleRequest
      (correct_path "user/profile/alice".toList)).1 [] [] sampleRoute
      ["alice".toList] (by simp) (by decide)
  simpa [sampleRequest] using h

/-- C3: registering under a name already present in the name index fails
with a duplicate-name error whose carried router state is exactly the
router before the call — no partial insert, the earlier registration
intact. -/
theorem register_duplicate_name_rejected (ro : Router) (path : Path)
    (handler : Handler) (methods : List String) (n : String)
    (hm : methods ≠ []) (hdup : dictHas ro.routes n = true) :
    register ro path handler methods (some n) =
      .error (.api ("Duplicate " ++ n), ro) := by
  have hm' : methods.isEmpty = false := by
    cases methods with
    | nil => exact absurd rfl hm
    | cons a l => rfl
  simp [register, validateArgs, hm', register_url, define_route, hdup]

/-- C3 witness: with `profile` already registered, a second registration
under the name `profile` is rejected and the router state carried by the
error is the untouched one-route router. -/
theorem register_duplicate_name_rejected_witness :
    register { urls := [sampleRoute], routes := [("profile", sampleRoute)],
               middlewares := [] }
        "user/info".toList sampleHandler ["POST"] (some "profile") =
      .error (.api ("Duplicate " ++ "profile"),
        { urls := [sampleRoute], routes := [("profile", sampleRoute)],
          middlewares := [] }) :=
  register_duplicate_name_rejected _ _ _ _ _ (by simp) (by rfl)

/-- C8: `include` enforces the Router capability contract — any
`SimpleRouter` argument is merged (routes appended, name index
dict-updated), and any other argument raises a `TypeError` whose carried
state is the unchanged router. -/
theorem include_capability_contract (ro : Router) :
    (∀ rb, include_router ro (.simple rb) =
        .ok { ro with urls := ro.urls ++ rb.urls
                      routes := dictUpdate ro.routes rb.routes })
    ∧ (∀ tag, include_router ro (.otherClass tag) =
        .error (.typeError "Passed router must be inherited from the SimpleRouter class.", ro)) :=
  ⟨fun _ => rfl, fun _ => rfl⟩

/-- A normal exit of the `try` block never leaves the `serializer` local
unbound: the only normal exit point assigns it first. -/
lemma tryDispatch_normal_some (ro : Router) (request : Request)
    (c : Content) (r' : Request) :
    tryDispatch ro request ≠ .normal c none r' := by
  intro h
  unfold tryDispatch at h
  dsimp only at h
  repeat' split at h
  all_goals simp_all

/-- C10: on every path reaching the final serialization, the `serializer`
local is bound — `process_request` either returns serialized output or
propagates an exception; it never fails by reading an unbound local. -/
theorem serializer_always_bound (ro : Router) (request : Request) :
    (∃ out, process_request ro request = .ok out)
    ∨ (∃ e, process_request ro request = .error (.raised e)) := by
  cases htry : tryDispatch ro request with
  | normal c s r' =>
      cases s with
      | none => exact absurd htry (tryDispatch_normal_some ro request c r')
      | some ser => exact .inl ⟨ser c, by simp [process_request, htry]⟩
  | exc e s =>
      cases e with
      | api d =>
          exact .inl ⟨jsonSerialize (.details d), by simp [process_request, htry]⟩
      | typeError m => exact .inr ⟨.typeError m, by simp [process_request, htry]⟩
      | otherExc t => exact .inr ⟨.otherExc t, by simp [process_request, htry]⟩

/-- C4: a request with a falsy `url` takes the "URL not specified" error
path, and a request whose normalized URL matches no registered route
(with the middleware chain completing) takes the "no handler" error
path; both return a default-serialized `{details: <message>}` body
normally. -/
theorem input_error_paths (ro : Router) (request : Request) :
    (request.urlFalsy = true →
        process_request ro request =
          .ok (jsonSerialize (.details notSpecifiedURLDetail)))
    ∧ (∀ request', request.urlFalsy = false →
        (∀ rt ∈ ro.urls, rt.match (correct_path (request.url.getD [])) = none) →
        runMiddlewares ro.middlewares request = .ok request' →
        process_request ro request =
          .ok (jsonSerialize (.details notSpecifiedHandlerDetail))) := by
  constructor
  · intro hf
    simp [process_request, tryDispatch, extract_url, hf]
  · intro request' hf hnone hmw
    have hsearch : search_handler ro.urls request (correct_path (request.url.getD []))
        = (none, [], none) := search_handler_all_none _ _ _ hnone
    simp [process_request, tryDispatch, extract_url, hf, hsearch, hmw]

/-- C4 witness: on the empty router, a request without a `url` yields the
"URL not specified" body and a request for an unregistered URL yields
the "no handler" body. -/
theorem input_error_paths_witness :
    process_request Router.empty { url := none, method := "GET", args := [] } =
      .ok (jsonSerialize (.details notSpecifiedURLDetail))
    ∧ process_request Router.empty
        { url := some "nope".toList, method := "GET", args := [] } =
      .ok (jsonSerialize (.details notSpecifiedHandlerDetail)) :=
  ⟨(input_error_paths Router.empty _).1 rfl,
   (input_error_paths Router.empty _).2 _ rfl (by simp [Router.empty]) rfl⟩

/-- C2: `process_request` propagates an exception exactly when the `try`
block raised one outside the `BaseAPIException` taxonomy (a); every
taxonomy exception, wherever raised, exits normally as the
default-JSON-serialized `{details: <message>}` body (b), in particular
when raised during URL extraction (c), middleware application (d),
serializer negotiation (e), or handler dispatch (f). -/
theorem process_request_exception_policy (ro : Router) (request : Request) :
    (∀ err, process_request ro request = .error err ↔
        ∃ e s, err = .raised e ∧ tryDispatch ro request = .exc e s ∧ ∀ d, e ≠ .api d)
    ∧ (∀ d s, tryDispatch ro request = .exc (.api d) s →
        process_request ro request = .ok (jsonSerialize (.details d)))
    ∧ (request.urlFalsy = true →
        process_request ro request =
          .ok (jsonSerialize (.details notSpecifiedURLDetail)))
    ∧ (∀ d, request.urlFalsy = false →
        runMiddlewares ro.middlewares request = .error (.api d) →
        process_request ro request = .ok (jsonSerialize (.details d)))
    ∧ (∀ d handler args kwargs request', request.urlFalsy = false →
        search_handler ro.urls request (correct_path (request.url.getD []))
          = (some handler, args, kwargs) →
        runMiddlewares ro.middlewares request = .ok request' →
        handler.get_serializer (request'.get_argument "format") args kwargs
          = .error (.api d) →
        process_request ro request = .ok (jsonSerialize (.details d)))
    ∧ (∀ d handler args kwargs request' serializer, request.urlFalsy = false →
        search_handler ro.urls request (correct_path (request.url.getD []))
          = (some handler, args, kwargs) →
        runMiddlewares ro.middlewares request = .ok request' →
        handler.get_serializer (request'.get_argument "format") args kwargs
          = .ok serializer →
        handler.dispatch request' args kwargs = .error (.api d) →
        process_request ro request = .ok (jsonSerialize (.details d))) := by
  refine ⟨?_, ?_, ?_, ?_, ?_, ?_⟩
  · intro err
    constructor
    · intro herr
      cases htry : tryDispatch ro request with
      | normal c s r' =>
          cases s with
          | none => exact absurd htry (tryDispatch_normal_some ro request c r')
          | some ser => simp [process_request, htry] at herr
      | exc e s =>
          cases e with
          | api d => simp [process_request, htry] at herr
          | typeError m =>
              simp [process_request, htry] at herr
              exact ⟨.typeError m, s, herr.symm, rfl, fun d hd => by cases hd⟩
          | otherExc t =>
              simp [process_request, htry] at herr
              exact ⟨.otherExc t, s, herr.symm, rfl, fun d hd => by cases hd⟩
    · rintro ⟨e, s, rfl, htry, hnapi⟩
      cases e with
      | api d => exact absurd rfl (hnapi d)
      | typeError m => simp [process_request, htry]
      | otherExc t => simp [process_request, htry]
  · intro d s htry
    simp [process_request, htry]
  · intro hf
    simp [process_request, tryDispatch, extract_url, hf]
  · intro d hf hmw
    simp [process_request, tryDispatch, extract_url, hf, hmw]
  · intro d handler args kwargs request' hf hsearch hmw hser
    simp [process_request, tryDispatch, extract_url, hf, hsearch, hmw, hser]
  · intro d handler args kwargs request' serializer hf hsearch hmw hser hdisp
    simp [process_request, tryDispatch, extract_url, hf, hsearch, hmw, hser, hdisp]

/-- A middleware that rejects every request with a taxonomy exception. -/
def rejectingMiddleware : Middleware :=
  { process_request := fun _ => .error (.api "middleware rejected") }

/-- C2 witness: a router whose only middleware raises a taxonomy
exception makes `process_request` return the default-serialized details
body for that exception. -/
theorem process_request_exception_policy_witness :
    process_request { urls := [], routes := [], middlewares := [rejectingMiddleware] }
        sampleRequest =
      .ok (jsonSerialize (.details "middleware rejected")) :=
  (process_request_exception_policy
      { urls := [], routes := [], middlewares := [rejectingMiddleware] }
      sampleRequest).2.2.2.1 "middleware rejected" rfl rfl

/-- C6: the middleware loop is the sequential left fold of
`process_request` over the registered middlewares (part 1) — so with
`M1` then `M2` registered, `M2` observes exactly the request `M1`
returned (part 2) — and the handler's dispatch (and serializer
negotiation's format lookup) receives the request returned by the last
middleware, while route resolution used the pre-middleware request
(part 3). -/
theorem middleware_chain_order (ro : Router) (request : Request) :
    (∀ (ms : List Middleware) (r : Request),
        runMiddlewares ms r = ms.foldlM (fun r m => m.process_request r) r)
    ∧ (∀ (m1 m2 : Middleware) (r r1 : Request),
        m1.process_request r = .ok r1 →
        runMiddlewares [m1, m2] r = m2.process_request r1)
    ∧ (∀ handler args kwargs request' serializer content,
        request.urlFalsy = false →
        search_handler ro.urls request (correct_path (request.url.getD []))
          = (some handler, args, kwargs) →
        runMiddlewares ro.middlewares request = .ok request' →
        handler.get_serializer (request'.get_argument "format") args kwargs
          = .ok serializer →
        handler.dispatch request' args kwargs = .ok content →
        process_request ro request = .ok (serializer content)) := by
  refine ⟨?_, ?_, ?_⟩
  · intro ms
    induction ms with
    | nil => intro r; rfl
    | cons m t ih =>
        intro r
        simp only [runMiddlewares, List.foldlM_cons]
        cases m.process_request r with
        | ok r' => simpa [Except.bind] using ih r'
        | error e => rfl
  · intro m1 m2 r r1 h1
    simp only [runMiddlewares, h1]
    cases h2 : m2.process_request r1 with
    | ok r2 => rfl
    | error e => rfl
  · intro handler args kwargs request' serializer content hf hsearch hmw hser hdisp
    simp [process_request, tryDispatch, extract_url, hf, hsearch, hmw, hser, hdisp]

/-- A middleware that tags the request's method, for observing the
threading order. -/
def taggingMiddleware (tag : String) : Middleware :=
  { process_request := fun r => .ok { r with method := r.method ++ tag } }

/-- C6 witness: with tagging middlewares `+m1` then `+m2`, the chain
output carries both tags in order — `M2` saw `M1`'s output. -/
theorem middleware_chain_order_witness :
    runMiddlewares [taggingMiddleware "+m1", taggingMiddleware "+m2"] sampleRequest =
      .ok { url := some "user/profile/alice".toList, method := "GET+m1+m2", args := [] } := by
  rw [(middleware_chain_order Router.empty sampleRequest).2.1
    (taggingMiddleware "+m1") (taggingMiddleware "+m2") sampleRequest
    { url := some "user/profile/alice".toList, method := "GET+m1", args := [] } rfl]
  rfl

/-! ### Association-list (`dict`) lemmas for the name index -/

lemma dictGet_nil (n : String) : dictGet [] n = none := rfl

lemma dictGet_cons (a : String) (b : Route) (t : RouteDict) (n : String) :
    dictGet ((a, b) :: t) n = if a = n then some b else dictGet t n := by
  by_cases h : a = n
  · rw [dictGet, List.find?_cons_of_pos, if_pos h]
    · rfl
    · simp [h]
  · rw [dictGet, List.find?_cons_of_neg, if_neg h]
    · rfl
    · simp [h]

lemma dictGet_dictSet (d : RouteDict) (k : String) (v : Route) (n : String) :
    dictGet (dictSet d k v) n = if n = k then some v else dictGet d n := by
  induction d with
  | nil =>
      show dictGet [(k, v)] n = _
      rw [dictGet_cons]
      by_cases h : n = k
      · rw [if_pos h.symm, if_pos h]
      · rw [if_neg (fun hh => h hh.symm), if_neg h]
  | cons p t ih =>
      obtain ⟨a, b⟩ := p
      by_cases hak : a = k
      · subst hak
        simp only [dictSet, if_true, eq_self_iff_true]
        rw [dictGet_cons, dictGet_cons]
        by_cases hn : a = n
        · rw [if_pos hn, if_pos hn.symm]
        · rw [if_neg hn, if_neg (fun hh => hn hh.symm), if_neg hn]
      · simp only [dictSet, if_neg hak]
        rw [dictGet_cons, dictGet_cons, ih]
        by_cases han : a = n
        · rw [if_pos han, if_neg (fun hh => hak (han.trans hh)), if_pos han]
        · rw [if_neg han, if_neg han]

lemma dictHas_cons (a : String) (b : Route) (t : RouteDict) (n : String) :
    dictHas ((a, b) :: t) n = (decide (a = n) || dictHas t n) := by
  rfl

lemma dictHas_true_iff (d : RouteDict) (n : String) :
    dictHas d n = true ↔ n ∈ d.map Prod.fst := by
  simp [dictHas, List.any_eq_true, List.mem_map]

/-- Python `dict.update` lookup semantics: entries of the updating dict
win, everything else falls back to the updated dict. -/
lemma dictGet_dictUpdate (d m : RouteDict) (hm : (m.map Prod.fst).Nodup) (n : String) :
    dictGet (dictUpdate d m) n =
      if dictHas m n then dictGet m n else dictGet d n := by
  induction m generalizing d with
  | nil => simp [dictUpdate, dictHas]
  | cons p t ih =>
      obtain ⟨k, v⟩ := p
      rw [List.map_cons] at hm
      have hk : k ∉ t.map Prod.fst := (List.nodup_cons.mp hm).1
      have hm' : (t.map Prod.fst).Nodup := (List.nodup_cons.mp hm).2
      show dictGet (dictUpdate (dictSet d k v) t) n = _
      rw [ih (dictSet d k v) hm']
      by_cases hn : dictHas t n
      · have hkn : k ≠ n := fun h => hk (h ▸ (dictHas_true_iff t n).mp hn)
        rw [if_pos hn, dictHas_cons]
        rw [if_pos (by simp [hn]), dictGet_cons, if_neg hkn]
      · rw [if_neg (by simp [hn] : ¬ dictHas t n = true), dictGet_dictSet, dictHas_cons]
        by_cases hnk : n = k
        · rw [if_pos hnk, if_pos (by simp [hnk]), dictGet_cons, if_pos hnk.symm]
        · rw [if_neg hnk, if_neg (by simp [hn]; exact fun h => hnk h.symm)]

/-- Searching a concatenated route list: the first list's result when it
resolves a handler, the second list's result otherwise. -/
lemma search_handler_append (l₁ l₂ : List Route) (req : Request) (u : Path) :
    search_handler (l₁ ++ l₂) req u =
      if (search_handler l₁ req u).1.isSome then search_handler l₁ req u
      else search_handler l₂ req u := by
  induction l₁ with
  | nil => simp [search_handler]
  | cons r t ih =>
      cases hr : r.match u with
      | some m => simp [search_handler, hr]
      | none => simp [search_handler, hr, ih]

/-- C5: `routerA.include(routerB)` appends `routerB`'s routes behind
`routerA`'s (preserving relative order), merges the name index with
`routerB` winning on collisions, and therefore resolves every URL
`routerB` alone would resolve — with `routerA`'s pre-existing routes
consulted first. -/
theorem include_merge (ro rb : Router)
    (hkeys : (rb.routes.map Prod.fst).Nodup) :
    ∃ ro', include_router ro (.simple rb) = .ok ro'
      ∧ ro'.urls = ro.urls ++ rb.urls
      ∧ (∀ n, dictGet ro'.routes n =
            if dictHas rb.routes n then dictGet rb.routes n else dictGet ro.routes n)
      ∧ (∀ req u, search_handler ro'.urls req u =
            if (search_handler ro.urls req u).1.isSome
            then search_handler ro.urls req u
            else search_handler rb.urls req u) :=
  ⟨_, rfl, rfl, fun n => dictGet_dictUpdate ro.routes rb.routes hkeys n,
   fun req u => search_handler_append ro.urls rb.urls req u⟩

/-- A second route under the colliding name `profile`, for the merge
witness. -/
def sampleRouteB : Route :=
  define_route (correct_path "user/info".toList) sampleHandler ["GET"] (some "profile")

/-- C5 witness: merging a router whose name index also binds `profile`
keeps both route lists in order and lets the included router's `profile`
entry win. -/
theorem include_merge_witness :
    ∃ ro', include_router
        { urls := [sampleRoute], routes := [("profile", sampleRoute)], middlewares := [] }
        (.simple { urls := [sampleRouteB], routes := [("profile", sampleRouteB)],
                   middlewares := [] }) = .ok ro'
      ∧ ro'.urls = [sampleRoute, sampleRouteB]
      ∧ dictGet ro'.routes "profile" = some sampleRouteB := by
  obtain ⟨ro', h1, h2, h3, _⟩ := include_merge
    { urls := [sampleRoute], routes := [("profile", sampleRoute)], middlewares := [] }
    { urls := [sampleRouteB], routes := [("profile", sampleRouteB)], middlewares := [] }
    (by simp)
  refine ⟨ro', h1, by simpa using h2, ?_⟩
  rw [h3 "profile"]
  rfl

/-! ### Normalization invariant -/

lemma correct_path_getLast (p : Path) : (correct_path p).getLast? = some '/' := by
  unfold correct_path
  dsimp only
  split
  · assumption
  · exact List.getLast?_concat _

/-- A successful `register` appends exactly the route compiled from the
normalized path, touching nothing else of interest. -/
lemma register_ok_urls (ro ro' : Router) (p : Path) (h : Handler)
    (ms : List String) (n : Option String)
    (hreg : register ro p h ms n = .ok ro') :
    ro'.urls = ro.urls ++ [define_route (correct_path p) h ms n] := by
  unfold register register_url at hreg
  dsimp only at hreg
  repeat' split at hreg
  all_goals simp_all
  all_goals rw [← hreg]

/-- Routers reachable from a fresh router by successful registrations
and includes (the build-then-freeze lifecycle). -/
inductive Built : Router → Prop where
  | base (ms : List Middleware) : Built { urls := [], routes := [], middlewares := ms }
  | reg (ro ro' : Router) (p : Path) (h : Handler) (ms : List String)
      (n : Option String) : Built ro → register ro p h ms n = .ok ro' → Built ro'
  | inc (ro rb ro' : Router) : Built ro → Built rb →
      include_router ro (.simple rb) = .ok ro' → Built ro'

/-- C7: normalization is one function — `correct_path` trims and forces
a trailing `/` (part 1); every route a built router stores has a
normalized (`correct_path`-image, slash-terminated) path, with its
pattern compiled from that normalized path (part 2); and every URL the
dispatcher extracts is the `correct_path` of the request's URL, hence
slash-terminated (part 3). -/
theorem normalization_invariant :
    (∀ p : Path, (correct_path p).getLast? = some '/')
    ∧ (∀ ro : Router, Built ro → ∀ rt ∈ ro.urls,
        (∃ p, rt.path = correct_path p)
        ∧ rt.path.getLast? = some '/'
        ∧ rt.pattern = (splitSlash rt.path).map classifySeg)
    ∧ (∀ (request : Request) (u : Path), extract_url request = .ok u →
        u = correct_path (request.url.getD []) ∧ u.getLast? = some '/') := by
  refine ⟨correct_path_getLast, ?_, ?_⟩
  · intro ro hb
    induction hb with
    | base ms => intro rt hrt; simp at hrt
    | reg ro ro' p h ms n hbuilt hreg ih =>
        intro rt hrt
        rw [register_ok_urls ro ro' p h ms n hreg] at hrt
        rcases List.mem_append.mp hrt with hmem | hmem
        · exact ih rt hmem
        · have heq : rt = define_route (correct_path p) h ms n := by simpa using hmem
          subst heq
          exact ⟨⟨p, rfl⟩, correct_path_getLast p, rfl⟩
    | inc ro rb ro' hba hbb hinc iha ihb =>
        intro rt hrt
        have hurls : ro'.urls = ro.urls ++ rb.urls := by
          have h2 := hinc
          simp only [include_router, Except.ok.injEq] at h2
          rw [← h2]
        rw [hurls] at hrt
        rcases List.mem_append.mp hrt with hmem | hmem
        · exact iha rt hmem
        · exact ihb rt hmem
  · intro request u hext
    unfold extract_url at hext
    split at hext
    · cases hext
    · cases hext
      exact ⟨rfl, correct_path_getLast _⟩

/-- The one-route router obtained by registering the sample route on a
fresh router. -/
def builtSampleRouter : Router :=
  { urls := [sampleRoute], routes := [("profile", sampleRoute)], middlewares := [] }

/-- C7 witness: the route registered for `user/profile/{user_name}` in a
concretely built router has a slash-terminated normalized path. -/
theorem normalization_invariant_witness :
    sampleRoute.path.getLast? = some '/' := by
  have hb : Built builtSampleRouter :=
    Built.reg Router.empty builtSampleRouter
      "user/profile/\x7buser_name\x7d".toList sampleHandler
      ["GET"] (some "profile") (Built.base []) rfl
  exact (normalization_invariant.2.1 builtSampleRouter hb sampleRoute (by
    simp [builtSampleRouter])).2.1

/-! ### Base64 round trip -/

lemma b64charDec_enc : ∀ s : Nat, s < 64 → b64charDec (b64charEnc s) = s := by decide

lemma b64charEnc_ne_pad : ∀ s : Nat, s < 64 → b64charEnc s ≠ 61 := by decide

/-- Decoding a full (pad-free) quadruple recovers three bytes and
recurses. -/
lemma b64decode_cons (x y z w : Nat) (rest : List Nat)
    (hz : z ≠ 61) (hw : w ≠ 61) :
    b64decode (x :: y :: z :: w :: rest) =
      (b64charDec x * 4 + b64charDec y / 16) ::
      (b64charDec y % 16 * 16 + b64charDec z / 4) ::
      (b64charDec z % 4 * 64 + b64charDec w) :: b64decode rest := by
  simp [b64decode, hz, hw]

/-- Modelled from the spec: base64 decoding inverts base64 encoding on
byte sequences. -/
lemma b64decode_b64encode : ∀ s : List Nat, (∀ b ∈ s, b < 256) →
    b64decode (b64encode s) = s
  | [], _ => rfl
  | [a], h => by
      have ha : a < 256 := h a (by simp)
      have h1 : a / 4 < 64 := by omega
      have h2 : a % 4 * 16 < 64 := by omega
      show b64decode [b64charEnc (a / 4), b64charEnc (a % 4 * 16), 61, 61] = [a]
      simp only [b64decode, if_pos]
      rw [b64charDec_enc _ h1, b64charDec_enc _ h2]
      have he : a / 4 * 4 + a % 4 * 16 / 16 = a := by omega
      rw [he]
  | [a, b], h => by
      have ha : a < 256 := h a (by simp)
      have hb : b < 256 := h b (by simp)
      have h1 : a / 4 < 64 := by omega
      have h2 : a % 4 * 16 + b / 16 < 64 := by omega
      have h3 : b % 16 * 4 < 64 := by omega
      show b64decode [b64charEnc (a / 4), b64charEnc (a % 4 * 16 + b / 16),
          b64charEnc (b % 16 * 4), 61] = [a, b]
      simp only [b64decode, if_neg (b64charEnc_ne_pad _ h3), if_pos]
      rw [b64charDec_enc _ h1, b64charDec_enc _ h2, b64charDec_enc _ h3]
      have e1 : a / 4 * 4 + (a % 4 * 16 + b / 16) / 16 = a := by omega
      have e2 : (a % 4 * 16 + b / 16) % 16 * 16 + b % 16 * 4 / 4 = b := by omega
      rw [e1, e2]
  | a :: b :: c :: rest, h => by
      have ha : a < 256 := h a (by simp)
      have hb : b < 256 := h b (by simp)
      have hc : c < 256 := h c (by simp)
      have ih := b64decode_b64encode rest (fun x hx => h x (by simp [hx]))
      have h1 : a / 4 < 64 := by omega
      have h2 : a % 4 * 16 + b / 16 < 64 := by omega
      have h3 : b % 16 * 4 + c / 64 < 64 := by omega
      have h4 : c % 64 < 64 := by omega
      show b64decode (b64charEnc (a / 4) :: b64charEnc (a % 4 * 16 + b / 16) ::
          b64charEnc (b % 16 * 4 + c / 64) :: b64charEnc (c % 64) ::
          b64encode rest) = a :: b :: c :: rest
      rw [b64decode_cons _ _ _ _ _ (b64charEnc_ne_pad _ h3) (b64charEnc_ne_pad _ h4)]
      rw [b64charDec_enc _ h1, b64charDec_enc _ h2, b64charDec_enc _ h3,
        b64charDec_enc _ h4, ih]
      have e1 : a / 4 * 4 + (a % 4 * 16 + b / 16) / 16 = a := by omega
      have e2 : (a % 4 * 16 + b / 16) % 16 * 16 + (b % 16 * 4 + c / 64) / 4 = b := by
        omega
      have e3 : (b % 16 * 4 + c / 64) % 4 * 64 + c % 64 = c := by omega
      rw [e1, e2, e3]

/-- C9: the transport framing round-trips — with `isBinary` set, the
base64 decode on receive exactly inverts the base64 encode on send; with
it unset, `encode_message` passes the serialized bytes through
unchanged. -/
theorem framing_round_trip (s : List Nat) (h : ∀ b ∈ s, b < 256)
    (isBinary : Bool) :
    decode_message_framing (encode_message s isBinary) isBinary = s := by
  cases isBinary with
  | false => rfl
  | true => simpa [decode_message_framing, encode_message] using b64decode_b64encode s h

/-- C9 witness: the bytes of `"Hello"` survive the round trip under both
framing modes. -/
theorem framing_round_trip_witness :
    decode_message_framing (encode_message [72, 101, 108, 108, 111] true) true
        = [72, 101, 108, 108, 111]
    ∧ decode_message_framing (encode_message [72, 101, 108, 108, 111] false) false
        = [72, 101, 108, 108, 111] :=
  ⟨framing_round_trip _ (by decide) true, framing_round_trip _ (by decide) false⟩

end AiorestWs
